import Mathlib

/-
Shallow embedding of the HealthyBites catalog core.

Source of truth:
* `src/unnamed/part_003` — the current `productModel.ts` (it exports
  `FilterOptions`, which `src/server/routes/apis/products.ts` imports).
* `src/unnamed/part_004` (first file) — the current `ingredientModel.ts`.
* `src/server/models/productModel.ts` — an older revision of the product
  model; its `find` is also embedded (`findProductsOld`) because it applies
  the query object that the current revision builds and then drops.

Modelling conventions:
* The Mongo store is a pure `DB` value; each mutating repository operation
  returns `DB × Except RepoError _` — the returned `DB` is the store after
  the call, and a thrown JS `Error` becomes `.error e` with the store it
  left behind (all throws in the source happen before any write of that
  operation, so the store component is the input store on every error).
* Mongo `ObjectId`s become `Nat`s handed out by per-collection counters.
* JS numbers are modelled as `Int`: every numeric field in the claims holds
  integral values, and JS truthiness of a number (`0` falsy) and `<=`
  comparisons agree with `Int` on integral inputs.
* `undefined` vs `null` for an optional argument is `Option (Option _)`:
  `none` = argument omitted (`undefined`), `some none` = explicit `null`.
-/

deriving instance DecidableEq for Except

namespace HealthyBites

/-! ### Data model (schemas in part_003 / part_004) -/

inductive Species
  | cat
  | dog
  deriving DecidableEq, Repr

inductive LifeStage
  | adult
  | young
  | all
  deriving DecidableEq, Repr

inductive FoodType
  | dry
  | wet
  deriving DecidableEq, Repr

inductive SizeUnit
  | lb
  | can
  deriving DecidableEq, Repr

structure Rating where
  species : Species
  healthRating : Option Int
  notes : Option String
  deriving DecidableEq, Repr

structure Ingredient where
  id : Nat
  name : String
  ratings : List Rating
  deriving DecidableEq, Repr

structure Size where
  packaging : String
  price : Int
  count : Int
  unit : SizeUnit
  links : List String
  imageUrls : List String
  deriving DecidableEq, Repr

structure FeedingRow where
  minAge : Int
  maxAge : Int
  minWeight : Int
  maxWeight : Int
  minServing : Int
  maxServing : Int
  deriving DecidableEq, Repr

structure Product where
  id : Nat
  brand : String
  flavor : String
  species : Species
  lifeStage : LifeStage
  foodType : FoodType
  ingredients : List String
  sizes : List Size
  feedingChart : List FeedingRow
  deriving DecidableEq, Repr

/-- The whole document store: the two collections plus id counters. -/
structure DB where
  products : List Product
  ingredients : List Ingredient
  nextProductId : Nat
  nextIngredientId : Nat
  deriving DecidableEq, Repr

/-- The error messages thrown by the repository code, named after the
spec's error taxonomy (`mergeDuplicates`' message
`'One or both ingredients not found'` is the taxonomy's `NotFound`). -/
inductive RepoError
  | alreadyExists
  | notFound
  | noUpdatesProvided
  | incompleteSizeDetails
  | ratingAlreadyExists
  | ratingNotFound
  | sizeNotFound
  deriving DecidableEq, Repr

/-- Whether an operation returned normally (did not throw). -/
def exceptOk : Except RepoError α → Bool
  | .ok _ => true
  | .error _ => false

/-! ### Generic store helpers

`save()` on a fetched document writes the document carrying that `_id`
back; `findByIdAndDelete` removes it. -/

def replaceBy (key : α → Nat) (k : Nat) (a' : α) (l : List α) : List α :=
  l.map (fun j => if key j = k then a' else j)

def deleteBy (key : α → Nat) (k : Nat) (l : List α) : List α :=
  l.filter (fun j => !(key j == k))

/-! ### Ingredient repository (src/unnamed/part_004) -/

/-- Embeds `IngredientModel.findOne({ name })` — exact name match. -/
def findIngredientByName (l : List Ingredient) (name : String) : Option Ingredient :=
  l.find? (fun i => i.name == name)

/-- Embeds `IngredientModel.findById(id)`. -/
def lookupIng (db : DB) (id : Nat) : Option Ingredient :=
  db.ingredients.find? (fun i => i.id == id)

/-- In the source, `existingRating = ingredient.ratings.find(r => r.species === species)`
followed by `Object.assign(existingRating, update)` mutates only the first
matching entry; this helper rewrites exactly that entry. -/
def updateFirstRating (sp : Species) (f : Rating → Rating) : List Rating → List Rating
  | [] => []
  | r :: rest => if r.species = sp then f r :: rest else r :: updateFirstRating sp f rest

/-- Embeds `Ingredient.push(name, species, healthRating?, notes?)`
(part_004 lines 262–303).  `healthRating`/`notes` use the
`Option (Option _)` convention (`none` = omitted, `some none` = `null`);
the create/append branches store `healthRating ?? null` / `notes ?? null`,
the update branch merge-assigns only the fields that are not `undefined`.
The source has no throw path, hence no `.error` is ever produced. -/
def mergeRatingFields (healthRating : Option (Option Int))
    (notes : Option (Option String)) (r : Rating) : Rating :=
  { r with
    healthRating := (match healthRating with | none => r.healthRating | some v => v),
    notes := (match notes with | none => r.notes | some v => v) }

def pushIngredient (db : DB) (name : String) (sp : Species)
    (healthRating : Option (Option Int)) (notes : Option (Option String)) :
    DB × Except RepoError Ingredient :=
  match findIngredientByName db.ingredients name with
  | none =>
      let newIng : Ingredient :=
        { id := db.nextIngredientId,
          name := name,
          ratings := [{ species := sp,
                        healthRating := healthRating.getD none,
                        notes := notes.getD none }] }
      ({ db with ingredients := db.ingredients ++ [newIng],
                 nextIngredientId := db.nextIngredientId + 1 },
       .ok newIng)
  | some ing =>
      match ing.ratings.find? (fun r => decide (r.species = sp)) with
      | some _ =>
          let ing' : Ingredient :=
            { ing with ratings :=
                updateFirstRating sp (mergeRatingFields healthRating notes) ing.ratings }
          ({ db with ingredients := replaceBy Ingredient.id ing.id ing' db.ingredients },
           .ok ing')
      | none =>
          let ing' : Ingredient :=
            { ing with ratings := ing.ratings ++
                [{ species := sp,
                   healthRating := healthRating.getD none,
                   notes := notes.getD none }] }
          ({ db with ingredients := replaceBy Ingredient.id ing.id ing' db.ingredients },
           .ok ing')

/-- Embeds `Ingredient.pushMany({ names, species })` — the bare-names form used by
`Product.add`: `push(name, species)` for each name, with rating and notes
omitted.  (The source maps an async `push` per name without awaiting; the
single-threaded event loop runs them in list order, which is what the fold
models.) -/
def pushManyNames (db : DB) (names : List String) (sp : Species) : DB :=
  names.foldl (fun d n => (pushIngredient d n sp none none).1) db

/-- Embeds `Ingredient.mergeDuplicates(primaryId, duplicateId)`
(part_004 lines 440–466).  Both documents are fetched, the duplicate's
ratings are walked and pushed onto the primary's (live, growing) ratings
array whenever the primary does not yet hold that species, the primary is
saved, the duplicate deleted. -/
def mergeDuplicates (db : DB) (primaryId duplicateId : Nat) :
    DB × Except RepoError Ingredient :=
  match lookupIng db primaryId, lookupIng db duplicateId with
  | some primary, some duplicate =>
      let mergedRatings :=
        duplicate.ratings.foldl
          (fun acc dr =>
            if acc.any (fun pr => decide (pr.species = dr.species)) then acc
            else acc ++ [dr])
          primary.ratings
      let primary' : Ingredient := { primary with ratings := mergedRatings }
      let db1 : DB :=
        { db with ingredients := replaceBy Ingredient.id primary.id primary' db.ingredients }
      let db2 : DB :=
        { db1 with ingredients := deleteBy Ingredient.id duplicateId db1.ingredients }
      (db2, .ok primary')
  | _, _ => (db, .error .notFound)

/-! ### The `name` filter: `new RegExp(name, 'i')` then a Mongo regex match

The source hands the raw filter string to the JS `RegExp` constructor with
the `i` flag and lets Mongo search (unanchored) each stored name with it.
The embedding models the fragment of JS regular expressions this code can
meaningfully exercise: literal characters and the `.` wildcard (any
character; stored names contain no line terminators).  Any other regex
metacharacter — the quantifier braces included, since in `RegExp` a
pattern such as `a{2}` applies `{2}` as a quantifier rather than matching
three literal characters — makes `parsePattern` return `none`, covering
both patterns that throw a `SyntaxError` in the constructor (such as `(`
or a bare `*`) and well-formed constructs whose semantics lie outside the
modelled fragment (quantifiers, alternation, anchors, classes, escapes). -/

inductive RTok
  | lit (c : Char)
  | anyChar
  deriving DecidableEq, Repr

def regexMetaChars : List Char :=
  ['(', ')', '*', '+', '?', '[', ']', '|', '^', '$', '\\', '\x7b', '\x7d']

def parsePattern : List Char → Option (List RTok)
  | [] => some []
  | c :: cs =>
      if c = '.' then (parsePattern cs).map (fun ts => RTok.anyChar :: ts)
      else if c ∈ regexMetaChars then none
      else (parsePattern cs).map (fun ts => RTok.lit c :: ts)

/-- One token against one character; literals compare case-insensitively
(the `i` flag), `.` matches anything. -/
def tokMatches : RTok → Char → Bool
  | .lit c, d => c.toLower == d.toLower
  | .anyChar, _ => true

/-- The token list matches a prefix of the text. -/
def matchHere : List RTok → List Char → Bool
  | [], _ => true
  | _ :: _, [] => false
  | t :: ts, c :: cs => tokMatches t c && matchHere ts cs

/-- Unanchored search: the token list matches starting at some position. -/
def searchFrom (toks : List RTok) : List Char → Bool
  | [] => matchHere toks []
  | c :: cs => matchHere toks (c :: cs) || searchFrom toks cs

/-- Case-insensitive exact-prefix check on raw characters (spec side). -/
def prefixAux : List Char → List Char → Bool
  | [], _ => true
  | _ :: _, [] => false
  | a :: as, b :: bs => a.toLower == b.toLower && prefixAux as bs

/-- Case-insensitive contiguous-substring check on raw characters. -/
def substrAux (p : List Char) : List Char → Bool
  | [] => prefixAux p []
  | c :: cs => prefixAux p (c :: cs) || substrAux p cs

/-- Spec-side meaning of the `name` filter: "case-insensitive substring
match" — the filter string occurs contiguously in the stored name,
compared character-by-character ignoring case. -/
def isSubstringCI (pat s : String) : Bool :=
  substrAux pat.toList s.toList

/-! ### Ingredient `find` (part_004 lines 139–161) -/

structure IngFilter where
  id : Option Nat
  name : Option String
  species : Option Species
  rating : Option (Option Int)
  minRating : Option Int
  maxRating : Option Int
  deriving DecidableEq, Repr

/-- The value the source leaves at `query['ratings.healthRating']`.  When
`rating` is undefined and both bounds are given, the `maxRating`
assignment overwrites the `minRating` one on the same key, so only
`$lte` survives — mirrored by the `(some _, some mx)` arm. -/
inductive HealthQuery
  | eqNull
  | eqVal (v : Int)
  | gte (v : Int)
  | lte (v : Int)
  deriving DecidableEq, Repr

def healthQueryOf (f : IngFilter) : Option HealthQuery :=
  match f.rating with
  | some none => some .eqNull
  | some (some v) => some (.eqVal v)
  | none =>
      match f.minRating, f.maxRating with
      | some mn, none => some (.gte mn)
      | _, some mx => some (.lte mx)
      | none, none => none

/-- Mongo semantics of the health-rating condition against the `ratings`
array: a comparison operator matches when some array element satisfies it
(`null` entries never satisfy a numeric `$gte`/`$lte`); `$eq: null`
matches an element whose `healthRating` is `null`, or a document where the
path resolves to nothing (empty `ratings`). -/
def matchesHealth : HealthQuery → List Rating → Bool
  | .eqNull, rs => rs.isEmpty || rs.any (fun r => r.healthRating.isNone)
  | .eqVal v, rs => rs.any (fun r => r.healthRating == some v)
  | .gte v, rs => rs.any (fun r => match r.healthRating with
      | some x => decide (v ≤ x)
      | none => false)
  | .lte v, rs => rs.any (fun r => match r.healthRating with
      | some x => decide (x ≤ v)
      | none => false)

def ingMatches (toks : Option (List RTok)) (f : IngFilter) (i : Ingredient) : Bool :=
  (match toks with
    | none => true
    | some ts => searchFrom ts i.name.toList) &&
  (match f.species with
    | none => true
    | some sp => i.ratings.any (fun r => decide (r.species = sp))) &&
  (match healthQueryOf f with
    | none => true
    | some hq => matchesHealth hq i.ratings)

/-- A repository read returns either a single (possibly absent) document
(the `findById` short-circuit) or a list. -/
inductive IngFindResult
  | one : Option Ingredient → IngFindResult
  | many : List Ingredient → IngFindResult
  deriving DecidableEq, Repr

/-- Embeds `Ingredient.find(filters)` (part_004 lines 139–161).  `id` short-
circuits; otherwise the query is built and run.  The result is `none`
exactly when the name filter is a pattern outside the modelled fragment:
invalid ones such as `(`, on which the `RegExp` constructor throws, or
well-formed metacharacter constructs (quantifiers such as `a{2}`,
alternation, anchors, classes, escapes) whose search semantics the
fragment does not model. -/
def findIngredients (db : DB) (f : IngFilter) : Option IngFindResult :=
  match f.id with
  | some id => some (.one (lookupIng db id))
  | none =>
      match f.name with
      | some pat =>
          match parsePattern pat.toList with
          | none => none
          | some toks => some (.many (db.ingredients.filter (ingMatches (some toks) f)))
      | none => some (.many (db.ingredients.filter (ingMatches none f)))

/-! ### Product repository (src/unnamed/part_003, current productModel.ts) -/

/-- Embeds `ProductModel.findById(id)`. -/
def lookupProd (db : DB) (id : Nat) : Option Product :=
  db.products.find? (fun p => p.id == id)

/-- The five-field natural-key check of
`ProductModel.findOne({ brand, flavor, species, lifeStage, foodType })`. -/
def tupleMatches (brand flavor : String) (sp : Species) (ls : LifeStage)
    (ft : FoodType) (p : Product) : Bool :=
  p.brand == brand && p.flavor == flavor && decide (p.species = sp) &&
    decide (p.lifeStage = ls) && decide (p.foodType = ft)

/-- Embeds `Product.add(brand, flavor, species, lifeStage, foodType, ingredients,
sizes, feedingChart)` (part_003 lines 209–229): natural-key existence
check, then `Ingredient.pushMany({ names: ingredients, species })`, then
the save of the new product. -/
def addProduct (db : DB) (brand flavor : String) (sp : Species) (ls : LifeStage)
    (ft : FoodType) (ingredients : List String) (sizes : List Size)
    (feedingChart : List FeedingRow) : DB × Except RepoError Product :=
  match db.products.find? (tupleMatches brand flavor sp ls ft) with
  | some _ => (db, .error .alreadyExists)
  | none =>
      let newP : Product :=
        { id := db.nextProductId,
          brand := brand,
          flavor := flavor,
          species := sp,
          lifeStage := ls,
          foodType := ft,
          ingredients := ingredients,
          sizes := sizes,
          feedingChart := feedingChart }
      let db1 := pushManyNames db ingredients sp
      ({ db1 with products := db1.products ++ [newP],
                  nextProductId := db.nextProductId + 1 },
       .ok newP)

structure ProductFilter where
  id : Option Nat
  brand : Option String
  flavor : Option String
  species : Option Species
  lifeStage : Option LifeStage
  foodType : Option FoodType
  deriving DecidableEq, Repr

/-- The query object `Product.find` builds (part_003 lines 251–257): the
`lifeStage` entry is `{ $in: [lifeStage, 'all'] }`, every other entry is
an exact match. -/
structure ProductQuery where
  brand : Option String
  flavor : Option String
  species : Option Species
  lifeStage : Option (List LifeStage)
  foodType : Option FoodType
  deriving DecidableEq, Repr

def buildProductQuery (f : ProductFilter) : ProductQuery :=
  { brand := f.brand,
    flavor := f.flavor,
    species := f.species,
    lifeStage := f.lifeStage.map (fun ls => [ls, LifeStage.all]),
    foodType := f.foodType }

def matchesProductQuery (q : ProductQuery) (p : Product) : Bool :=
  (match q.brand with | none => true | some b => p.brand == b) &&
  (match q.flavor with | none => true | some fl => p.flavor == fl) &&
  (match q.species with | none => true | some sp => decide (p.species = sp)) &&
  (match q.lifeStage with | none => true | some l => l.contains p.lifeStage) &&
  (match q.foodType with | none => true | some ft => decide (p.foodType = ft))

inductive ProdFindResult
  | one : Option Product → ProdFindResult
  | many : List Product → ProdFindResult
  deriving DecidableEq, Repr

/-- Embeds `Product.find(filters)` in the current revision (part_003 lines
244–265): `id` short-circuits, the query object is built (and logged) but
the store is then queried with `ProductModel.find( )` — no argument — so
every product is returned. -/
def findProducts (db : DB) (f : ProductFilter) : ProdFindResult :=
  match f.id with
  | some id => .one (lookupProd db id)
  | none =>
      let _query := buildProductQuery f
      .many db.products

/-- Embeds `Product.find` in the older revision
(src/server/models/productModel.ts lines 238–253), which passes the built
query object to `ProductModel.find(query)`.  (That file spells the food
field `foodtype`; the query it builds is field-for-field the one above.) -/
def findProductsOld (db : DB) (f : ProductFilter) : ProdFindResult :=
  match f.id with
  | some id => .one (lookupProd db id)
  | none => .many (db.products.filter (matchesProductQuery (buildProductQuery f)))

structure ProductUpdates where
  brand : Option String
  flavor : Option String
  species : Option Species
  lifeStage : Option LifeStage
  foodType : Option FoodType
  ingredients : Option (List String)
  sizes : Option (List Size)
  feedingChart : Option (List FeedingRow)
  deriving DecidableEq, Repr

/-- Mirrors `Object.keys(update).length === 0`: every updatable field was
undefined. -/
def ProductUpdates.isEmptyUpdate (u : ProductUpdates) : Bool :=
  u.brand.isNone && u.flavor.isNone && u.species.isNone && u.lifeStage.isNone &&
    u.foodType.isNone && u.ingredients.isNone && u.sizes.isNone && u.feedingChart.isNone

/-- Embeds `Product.update(id, updates)` (part_003 lines 295–329).  The
`ingredients` branch of the source carries the comment
"Push ingredients to the Ingredient collection, adding any missing ones."
but contains no call — unlike the older revision, which calls
`Ingredient.pushMany(ingredients, species ?? product.species)` there.
Faithfully to the current revision, this embedding stores the new
ingredient list without touching the ingredient collection. -/
def updateProduct (db : DB) (id : Nat) (u : ProductUpdates) :
    DB × Except RepoError Product :=
  match lookupProd db id with
  | none => (db, .error .notFound)
  | some p =>
      if u.isEmptyUpdate then (db, .error .noUpdatesProvided)
      else
        let p' : Product :=
          { p with
            brand := u.brand.getD p.brand,
            flavor := u.flavor.getD p.flavor,
            species := u.species.getD p.species,
            lifeStage := u.lifeStage.getD p.lifeStage,
            foodType := u.foodType.getD p.foodType,
            ingredients := u.ingredients.getD p.ingredients,
            sizes := u.sizes.getD p.sizes,
            feedingChart := u.feedingChart.getD p.feedingChart }
        ({ db with products := replaceBy Product.id p.id p' db.products }, .ok p')

/-- The `addSize` payload: each field can be absent (`undefined`). -/
structure SizePayload where
  packaging : Option String
  price : Option Int
  count : Option Int
  unit : Option SizeUnit
  links : Option (List String)
  imageUrls : Option (List String)
  deriving DecidableEq, Repr

/-- Embeds `Product.addSize(productId, size)` (part_003 lines 345–366).  The
guard is JS truthiness `!packaging || !price || !count || !unit`:
`undefined` is falsy, and so are the present values `""` (for the string)
and `0` (for the numbers); a present `unit` is one of the enum strings
`'lb'`/`'can'`, always truthy.  On success the size is appended with
`links ?? []` and `imageUrls ?? []`. -/
def addSize (db : DB) (productId : Nat) (size : SizePayload) :
    DB × Except RepoError Product :=
  match lookupProd db productId with
  | none => (db, .error .notFound)
  | some p =>
      match size.packaging, size.price, size.count, size.unit with
      | some pk, some pr, some ct, some un =>
          if pk == "" || pr == 0 || ct == 0 then
            (db, .error .incompleteSizeDetails)
          else
            let newSize : Size :=
              { packaging := pk,
                price := pr,
                count := ct,
                unit := un,
                links := size.links.getD [],
                imageUrls := size.imageUrls.getD [] }
            let p' : Product := { p with sizes := p.sizes ++ [newSize] }
            ({ db with products := replaceBy Product.id p.id p' db.products }, .ok p')
      | _, _, _, _ => (db, .error .incompleteSizeDetails)

/-- The spec's description of the merge outcome: the primary keeps all of
its own ratings and gains exactly the duplicate's ratings for species the
primary had not rated. -/
def mergedPrimary (A B : Ingredient) : Ingredient :=
  { A with ratings := A.ratings ++ B.ratings.filter (fun dr => !(A.ratings.any (fun pr => decide (pr.species = dr.species)))) }

/-- How many stored ingredients carry a given name. -/
def countByName (db : DB) (name : String) : Nat :=
  (db.ingredients.filter (fun i => i.name == name)).length

/-! ### Concrete fixtures used by the closed theorems -/

def emptyDB : DB :=
  { products := [], ingredients := [], nextProductId := 1, nextIngredientId := 1 }

def pYoung : Product :=
  { id := 1, brand := "Purina", flavor := "Beef", species := .cat,
    lifeStage := .young, foodType := .dry, ingredients := [], sizes := [],
    feedingChart := [] }

def pAdult : Product := { pYoung with id := 2, lifeStage := .adult }

def pAll : Product := { pYoung with id := 3, lifeStage := .all }

def dbStages : DB :=
  { products := [pYoung, pAdult, pAll], ingredients := [],
    nextProductId := 4, nextIngredientId := 1 }

def emptyProductFilter : ProductFilter :=
  { id := none, brand := none, flavor := none, species := none,
    lifeStage := none, foodType := none }

def filterAdult : ProductFilter := { emptyProductFilter with lifeStage := some .adult }

def filterAllStage : ProductFilter := { emptyProductFilter with lifeStage := some .all }

def prodNoIngredients : Product :=
  { id := 1, brand := "Purina", flavor := "Beef", species := .cat,
    lifeStage := .adult, foodType := .dry, ingredients := [], sizes := [],
    feedingChart := [] }

def dbOneProduct : DB :=
  { products := [prodNoIngredients], ingredients := [],
    nextProductId := 2, nextIngredientId := 1 }

def updatesBeefOnly : ProductUpdates :=
  { brand := none, flavor := none, species := none, lifeStage := none,
    foodType := none, ingredients := some ["Beef"], sizes := none,
    feedingChart := none }

def cornIng : Ingredient :=
  { id := 1, name := "Corn", ratings := [{ species := .cat, healthRating := some 0, notes := none }] }

def dbCorn : DB :=
  { products := [], ingredients := [cornIng], nextProductId := 1, nextIngredientId := 2 }

def emptyIngFilter : IngFilter :=
  { id := none, name := none, species := none, rating := none,
    minRating := none, maxRating := none }

def filterMin5Max10 : IngFilter :=
  { emptyIngFilter with minRating := some 5, maxRating := some 10 }

def abcIng : Ingredient := { id := 1, name := "abc", ratings := [] }

def dbAbc : DB :=
  { products := [], ingredients := [abcIng], nextProductId := 1, nextIngredientId := 2 }

def chickenDog : Ingredient :=
  { id := 1, name := "Chicken", ratings := [{ species := .dog, healthRating := some 3, notes := none }] }

def chickenCat : Ingredient :=
  { id := 2, name := "Chicken", ratings := [{ species := .cat, healthRating := some 7, notes := some "fine" }] }

def dbChickenPair : DB :=
  { products := [], ingredients := [chickenDog, chickenCat],
    nextProductId := 1, nextIngredientId := 3 }

def fullSizePayload : SizePayload :=
  { packaging := some "bag", price := some 20, count := some 5,
    unit := some .lb, links := none, imageUrls := none }

def zeroPricePayload : SizePayload := { fullSizePayload with price := some 0 }

/-! ### Helper lemmas about the store primitives -/

theorem replaceBy_nil (key : α → Nat) (k : Nat) (a' : α) :
    replaceBy key k a' [] = [] := rfl

theorem replaceBy_cons (key : α → Nat) (k : Nat) (a' b : α) (l : List α) :
    replaceBy key k a' (b :: l) =
      (if key b = k then a' else b) :: replaceBy key k a' l := rfl

theorem replaceBy_append (key : α → Nat) (k : Nat) (a' : α) (l₁ l₂ : List α) :
    replaceBy key k a' (l₁ ++ l₂) = replaceBy key k a' l₁ ++ replaceBy key k a' l₂ := by
  simp [replaceBy]

theorem replaceBy_no_match (key : α → Nat) (k : Nat) (a' : α) :
    ∀ l : List α, (∀ j ∈ l, key j ≠ k) → replaceBy key k a' l = l
  | [], _ => rfl
  | b :: l, h => by
      rw [replaceBy_cons, if_neg (h b (by simp)),
        replaceBy_no_match key k a' l (fun j hj => h j (by simp [hj]))]

theorem find?_replaceBy_self (key : α → Nat) (k : Nat) (a a' : α) (hk : key a' = k) :
    ∀ l : List α, l.find? (fun j => key j == k) = some a →
      (replaceBy key k a' l).find? (fun j => key j == k) = some a'
  | [], h => by simp at h
  | b :: l, h => by
      by_cases hb : key b = k
      · rw [replaceBy_cons, if_pos hb]
        simp [List.find?_cons_of_pos, hk]
      · rw [List.find?_cons_of_neg _ (by simp [hb])] at h
        rw [replaceBy_cons, if_neg hb, List.find?_cons_of_neg _ (by simp [hb])]
        exact find?_replaceBy_self key k a a' hk l h

theorem find?_replaceBy_ne (key : α → Nat) (k k' : Nat) (a' : α)
    (hk : key a' = k) (hne : k' ≠ k) :
    ∀ l : List α,
      (replaceBy key k a' l).find? (fun j => key j == k') =
        l.find? (fun j => key j == k')
  | [] => rfl
  | b :: l => by
      by_cases hb : key b = k
      · rw [replaceBy_cons, if_pos hb,
          List.find?_cons_of_neg _ (by simp [hk]; omega),
          List.find?_cons_of_neg _ (by simp [hb]; omega)]
        exact find?_replaceBy_ne key k k' a' hk hne l
      · rw [replaceBy_cons, if_neg hb]
        by_cases hb' : key b = k'
        · rw [List.find?_cons_of_pos _ (by simp [hb']),
            List.find?_cons_of_pos _ (by simp [hb'])]
        · rw [List.find?_cons_of_neg _ (by simp [hb']),
            List.find?_cons_of_neg _ (by simp [hb'])]
          exact find?_replaceBy_ne key k k' a' hk hne l

theorem find?_deleteBy_self (key : α → Nat) (k : Nat) (l : List α) :
    (deleteBy key k l).find? (fun j => key j == k) = none := by
  rw [List.find?_eq_none]
  intro j hj
  have := (List.mem_filter.mp hj).2
  simpa using this

theorem find?_deleteBy_ne (key : α → Nat) (k k' : Nat) (hne : k' ≠ k) :
    ∀ l : List α,
      (deleteBy key k l).find? (fun j => key j == k') =
        l.find? (fun j => key j == k')
  | [] => rfl
  | b :: l => by
      by_cases hb : key b = k
      · have hfb : (key b == k) = true := by simpa using hb
        have : deleteBy key k (b :: l) = deleteBy key k l := by
          simp [deleteBy, List.filter_cons, hfb]
        rw [this, List.find?_cons_of_neg _ (by simp [hb]; omega)]
        exact find?_deleteBy_ne key k k' hne l
      · have hfb : (key b == k) = false := by simpa using hb
        have : deleteBy key k (b :: l) = b :: deleteBy key k l := by
          simp [deleteBy, List.filter_cons, hfb]
        rw [this]
        by_cases hb' : key b = k'
        · rw [List.find?_cons_of_pos _ (by simp [hb']),
            List.find?_cons_of_pos _ (by simp [hb'])]
        · rw [List.find?_cons_of_neg _ (by simp [hb']),
            List.find?_cons_of_neg _ (by simp [hb'])]
          exact find?_deleteBy_ne key k k' hne l

theorem find?_append_left_none {p : α → Bool} {l₁ : List α} (l₂ : List α)
    (h : l₁.find? p = none) : (l₁ ++ l₂).find? p = l₂.find? p := by
  rw [List.find?_append, h, Option.none_or]

/-! ### Lemmas about the ingredient operations -/

theorem pushIngredient_products (db : DB) (name : String) (sp : Species)
    (hr : Option (Option Int)) (no : Option (Option String)) :
    (pushIngredient db name sp hr no).1.products = db.products := by
  cases h1 : findIngredientByName db.ingredients name with
  | none => simp [pushIngredient, h1]
  | some ing =>
      cases h2 : ing.ratings.find? (fun r => decide (r.species = sp)) with
      | none => simp [pushIngredient, h1, h2]
      | some r => simp [pushIngredient, h1, h2]

theorem pushIngredient_ok (db : DB) (name : String) (sp : Species)
    (hr : Option (Option Int)) (no : Option (Option String)) :
    exceptOk (pushIngredient db name sp hr no).2 = true := by
  cases h1 : findIngredientByName db.ingredients name with
  | none => simp [pushIngredient, h1, exceptOk]
  | some ing =>
      cases h2 : ing.ratings.find? (fun r => decide (r.species = sp)) with
      | none => simp [pushIngredient, h1, h2, exceptOk]
      | some r => simp [pushIngredient, h1, h2, exceptOk]

theorem pushManyNames_products (sp : Species) :
    ∀ (names : List String) (db : DB),
      (pushManyNames db names sp).products = db.products
  | [], _ => rfl
  | n :: ns, db => by
      show (pushManyNames (pushIngredient db n sp none none).1 ns sp).products = _
      rw [pushManyNames_products sp ns, pushIngredient_products]

/-- The `forEach` body of `mergeDuplicates` walks the duplicate's ratings
against the primary's growing array; when every walked species is already
present in the accumulator, nothing is appended. -/
theorem mergeFold_self (init : List Rating) :
    ∀ l : List Rating,
      (∀ dr ∈ l, init.any (fun pr => decide (pr.species = dr.species)) = true) →
      l.foldl
        (fun acc dr =>
          if acc.any (fun pr => decide (pr.species = dr.species)) then acc
          else acc ++ [dr])
        init = init
  | [], _ => rfl
  | dr :: l, h => by
      rw [List.foldl_cons, if_pos (h dr (by simp))]
      exact mergeFold_self init l (fun x hx => h x (by simp [hx]))

/-- When the walked ratings have pairwise-distinct species, the `forEach`
body amounts to appending the filter of not-yet-rated species. -/
theorem mergeFold_filter :
    ∀ (l : List Rating) (acc : List Rating),
      l.Pairwise (fun r s => r.species ≠ s.species) →
      l.foldl
        (fun acc dr =>
          if acc.any (fun pr => decide (pr.species = dr.species)) then acc
          else acc ++ [dr])
        acc =
        acc ++ l.filter (fun dr => !(acc.any (fun pr => decide (pr.species = dr.species))))
  | [], acc, _ => by simp
  | dr :: l, acc, hdist => by
      have hhead : ∀ s ∈ l, dr.species ≠ s.species := (List.pairwise_cons.mp hdist).1
      have htail : l.Pairwise (fun r s => r.species ≠ s.species) :=
        (List.pairwise_cons.mp hdist).2
      rw [List.foldl_cons, List.filter_cons]
      by_cases hc : acc.any (fun pr => decide (pr.species = dr.species)) = true
      · rw [if_pos hc]
        simp only [hc, Bool.not_true, if_neg (by simp : ¬(false = true))]
        exact mergeFold_filter l acc htail
      · have hc' : acc.any (fun pr => decide (pr.species = dr.species)) = false := by
          simpa using hc
        rw [if_neg (by simp [hc'])]
        rw [mergeFold_filter l (acc ++ [dr]) htail]
        have hfilter :
            l.filter (fun s => !((acc ++ [dr]).any (fun pr => decide (pr.species = s.species)))) =
            l.filter (fun s => !(acc.any (fun pr => decide (pr.species = s.species)))) := by
          apply List.filter_congr
          intro s hs
          have : decide (dr.species = s.species) = false := by
            simpa using hhead s hs
          simp [List.any_append, this]
        rw [hfilter]
        simp [hc']

/-! ### Lemmas about the regex fragment and substring matching -/

theorem parsePattern_plain :
    ∀ l : List Char, (∀ c ∈ l, c ≠ '.' ∧ c ∉ regexMetaChars) →
      parsePattern l = some (l.map RTok.lit)
  | [], _ => rfl
  | c :: cs, h => by
      have hc := h c (by simp)
      have ih := parsePattern_plain cs (fun x hx => h x (by simp [hx]))
      simp [parsePattern, hc.1, hc.2, ih]

theorem matchHere_lit :
    ∀ p s : List Char, matchHere (p.map RTok.lit) s = prefixAux p s
  | [], _ => rfl
  | _ :: _, [] => rfl
  | a :: p, b :: s => by
      simp [matchHere, prefixAux, tokMatches, matchHere_lit p s]

theorem searchFrom_lit :
    ∀ p s : List Char, searchFrom (p.map RTok.lit) s = substrAux p s
  | p, [] => by simp [searchFrom, substrAux, matchHere_lit]
  | p, c :: cs => by
      simp [searchFrom, substrAux, matchHere_lit, searchFrom_lit p cs]

theorem prefixAux_iff :
    ∀ p s : List Char,
      prefixAux p s = true ↔ ∃ r, s.map Char.toLower = p.map Char.toLower ++ r
  | [], s => by simp [prefixAux]
  | a :: p, [] => by simp [prefixAux]
  | a :: p, b :: s => by
      rw [prefixAux]
      simp only [Bool.and_eq_true, beq_iff_eq, List.map_cons, List.cons_append,
        List.cons_eq_cons, prefixAux_iff p s]
      constructor
      · rintro ⟨h1, r, h2⟩
        exact ⟨r, h1.symm, h2⟩
      · rintro ⟨r, h1, h2⟩
        exact ⟨h1.symm, r, h2⟩

theorem substrAux_iff :
    ∀ p s : List Char,
      substrAux p s = true ↔
        ∃ l r, s.map Char.toLower = l ++ p.map Char.toLower ++ r
  | p, [] => by
      rw [substrAux, prefixAux_iff]
      constructor
      · rintro ⟨r, h⟩
        exact ⟨[], r, by simpa using h⟩
      · rintro ⟨l, r, h⟩
        simp only [List.map_nil] at h
        rcases List.append_eq_nil.mp (List.append_eq_nil.mp h.symm).1 with ⟨hl, hp⟩
        exact ⟨[], by simp [hp]⟩
  | p, c :: cs => by
      rw [substrAux, Bool.or_eq_true, prefixAux_iff, substrAux_iff p cs]
      constructor
      · rintro (⟨r, h⟩ | ⟨l, r, h⟩)
        · exact ⟨[], r, by simpa using h⟩
        · exact ⟨c.toLower :: l, r, by simp [h]⟩
      · rintro ⟨l, r, h⟩
        cases l with
        | nil => exact Or.inl ⟨r, by simpa using h⟩
        | cons x l =>
            simp only [List.map_cons, List.cons_append, List.cons_eq_cons] at h
            exact Or.inr ⟨l, r, h.2⟩

/-- Characterisation: `isSubstringCI pat s` is literally "the lowering of `s` splits around
the lowering of `pat`" — the spec's case-insensitive substring
containment. -/
theorem isSubstringCI_iff (pat s : String) :
    isSubstringCI pat s = true ↔
      ∃ l r, s.toList.map Char.toLower = l ++ pat.toList.map Char.toLower ++ r :=
  substrAux_iff pat.toList s.toList

/-! ### Claim theorems -/

/-- C1: the claim states that `Product.find` with `lifeStage=adult` and no
id returns exactly the products stored as `adult` or `all` and never a
`young` one, and that `lifeStage=all` returns exactly the literally-`all`
products.  The current `find` (part_003) builds that very query but calls
`ProductModel.find( )` with no argument, so the `young`-tagged product is
returned as well; the older revision's `find`, which passes the built
query on, behaves exactly as the claim states on the same store. -/
theorem C1_lifeStage_filter_dropped :
    findProducts dbStages filterAdult = .many [pYoung, pAdult, pAll]
    ∧ pYoung.lifeStage = .young
    ∧ findProductsOld dbStages filterAdult = .many [pAdult, pAll]
    ∧ findProductsOld dbStages filterAllStage = .many [pAll] := by decide

/-- C3: the claim states that both `Product.add` and `Product.update`
(when `ingredients` is supplied) push every supplied ingredient name to
the ingredient repository.  `add` does (`Beef` gets a placeholder entry
with the product's species and no rating), but the current `update`
persists the new ingredient list while leaving the ingredient collection
untouched — the reconciliation call is absent from its `ingredients`
branch. -/
theorem C3_update_skips_reconciliation :
    (updateProduct dbOneProduct 1 updatesBeefOnly).1.ingredients = []
    ∧ (updateProduct dbOneProduct 1 updatesBeefOnly).2 =
        .ok { prodNoIngredients with ingredients := ["Beef"] }
    ∧ (addProduct dbOneProduct "Purina" "Chicken" .cat .adult .dry ["Beef"] [] []).1.ingredients =
        [{ id := 1, name := "Beef",
           ratings := [{ species := .cat, healthRating := none, notes := none }] }] := by
  decide

/-- C5: the claim states that `Ingredient.find` with both bounds and no
`rating` returns exactly the ingredients with `minRating ≤ r ≤ maxRating`.
In the code the `maxRating` assignment overwrites the `minRating` one on
the same query key, so the `Corn` ingredient (rating 0) is returned for
`minRating=5, maxRating=10` even though `¬(5 ≤ 0)`.  The last conjunct
shows the true half of the claim at this store: with `rating` supplied the
two bounds are ignored. -/
theorem C5_minRating_bound_overwritten :
    findIngredients dbCorn filterMin5Max10 = some (.many [cornIng])
    ∧ cornIng.ratings = [{ species := .cat, healthRating := some 0, notes := none }]
    ∧ ¬((5 : Int) ≤ 0)
    ∧ findIngredients dbCorn { filterMin5Max10 with rating := some (some 0) } =
        findIngredients dbCorn { emptyIngFilter with rating := some (some 0) } := by
  decide

/-- C6 counterexample: the filter string `a.c` is handed to the `RegExp`
constructor, so it matches the stored name `abc` (`.` is a wildcard) even
though `a.c` is not a substring of `abc` under case-insensitive
comparison — refuting the claim for filter strings containing `.`. -/
theorem C6_name_filter_regex_cex :
    findIngredients dbAbc { emptyIngFilter with name := some "a.c" } =
      some (.many [abcIng])
    ∧ isSubstringCI "a.c" "abc" = false := by
  decide

/-- C8 counterexample: a size payload whose four required fields are all
present but whose `price` is `0` is rejected with
`IncompleteSizeDetails`, refuting the claim's "when all four required
fields are present, the size is appended". -/
theorem C8_present_zero_price_cex :
    zeroPricePayload.packaging.isSome = true
    ∧ zeroPricePayload.price.isSome = true
    ∧ zeroPricePayload.count.isSome = true
    ∧ zeroPricePayload.unit.isSome = true
    ∧ addSize dbOneProduct 1 zeroPricePayload =
        (dbOneProduct, .error .incompleteSizeDetails) := by
  decide

/-- C2: `push` is an idempotent upsert.  From a store holding no
ingredient of the given name (and whose ids are below the id counter, as
the store's creation discipline guarantees), two bare `push(name, species)`
calls leave exactly one ingredient of that name, holding exactly one
rating — for that species, with null rating and notes; a subsequent
`push(name, species, r, n)` merge-assigns `r`/`n` onto that same single
rating without appending a duplicate; and `push` never returns an error on
any input. -/
theorem C2_push_idempotent_upsert (db : DB) (name : String) (sp : Species)
    (hwf : ∀ i ∈ db.ingredients, i.id ≠ db.nextIngredientId)
    (hnone : findIngredientByName db.ingredients name = none) :
    countByName (pushIngredient (pushIngredient db name sp none none).1 name sp none none).1 name = 1
    ∧ (∀ i ∈ (pushIngredient (pushIngredient db name sp none none).1 name sp none none).1.ingredients,
        i.name = name →
        i.ratings = [{ species := sp, healthRating := none, notes := none }])
    ∧ (∀ (r : Int) (n : String),
        countByName (pushIngredient (pushIngredient (pushIngredient db name sp none none).1 name sp none none).1 name sp (some (some r)) (some (some n))).1 name = 1
        ∧ ∀ i ∈ (pushIngredient (pushIngredient (pushIngredient db name sp none none).1 name sp none none).1 name sp (some (some r)) (some (some n))).1.ingredients,
            i.name = name →
            i.ratings = [{ species := sp, healthRating := some r, notes := some n }])
    ∧ (∀ (d : DB) (nm : String) (s : Species) (h : Option (Option Int)) (o : Option (Option String)),
        exceptOk (pushIngredient d nm s h o).2 = true) := by
  have hmem : ∀ i ∈ db.ingredients, i.name ≠ name := by
    intro i hi
    have := List.find?_eq_none.mp hnone i hi
    simpa using this
  have hnil : db.ingredients.filter (fun i => i.name == name) = [] := by
    rw [List.filter_eq_nil_iff]
    intro i hi
    simpa using hmem i hi
  set ing0 : Ingredient := { id := db.nextIngredientId, name := name, ratings := [{ species := sp, healthRating := none, notes := none }] } with hing0
  set db1 : DB := { db with ingredients := db.ingredients ++ [ing0], nextIngredientId := db.nextIngredientId + 1 } with hdb1
  have h1 : pushIngredient db name sp none none = (db1, .ok ing0) := by
    simp [pushIngredient, hnone, hdb1, hing0]
  have hfind1 : findIngredientByName db1.ingredients name = some ing0 := by
    rw [hdb1]
    show findIngredientByName (db.ingredients ++ [ing0]) name = some ing0
    rw [findIngredientByName, find?_append_left_none _ hnone]
    simp [hing0]
  have hrat0 : ing0.ratings.find? (fun r => decide (r.species = sp)) =
      some { species := sp, healthRating := none, notes := none } := by
    simp [hing0]
  have hrepl0 : replaceBy Ingredient.id ing0.id ing0 db1.ingredients = db1.ingredients := by
    rw [hdb1]
    show replaceBy Ingredient.id ing0.id ing0 (db.ingredients ++ [ing0]) = _
    rw [replaceBy_append,
      replaceBy_no_match Ingredient.id ing0.id ing0 db.ingredients
        (by intro j hj; simpa [hing0] using hwf j hj),
      replaceBy_cons, if_pos rfl]
    rfl
  have h2 : pushIngredient db1 name sp none none = (db1, .ok ing0) := by
    have hupd0 : updateFirstRating sp (mergeRatingFields none none) ing0.ratings = ing0.ratings := by
      simp [hing0, updateFirstRating, mergeRatingFields]
    simp only [pushIngredient, hfind1, hrat0]
    rw [hupd0]
    have heta : ({ ing0 with ratings := ing0.ratings } : Ingredient) = ing0 := rfl
    rw [heta, hrepl0]
  have hcount1 : countByName db1 name = 1 := by
    rw [hdb1, countByName]
    show ((db.ingredients ++ [ing0]).filter (fun i => i.name == name)).length = 1
    rw [List.filter_append, hnil]
    simp [hing0]
  have hforall1 : ∀ i ∈ db1.ingredients, i.name = name →
      i.ratings = [{ species := sp, healthRating := none, notes := none }] := by
    rw [hdb1]
    intro i hi hname
    rcases List.mem_append.mp hi with h | h
    · exact absurd hname (hmem i h)
    · have : i = ing0 := by simpa using h
      rw [this, hing0]
  refine ⟨?_, ?_, ?_, ?_⟩
  · rw [h1]
    show countByName (pushIngredient db1 name sp none none).1 name = 1
    rw [h2]
    exact hcount1
  · rw [h1]
    show ∀ i ∈ (pushIngredient db1 name sp none none).1.ingredients, i.name = name → i.ratings = [{ species := sp, healthRating := none, notes := none }]
    rw [h2]
    exact hforall1
  · intro r n
    rw [h1, h2]
    set ing1 : Ingredient := { id := db.nextIngredientId, name := name, ratings := [{ species := sp, healthRating := some r, notes := some n }] } with hing1
    set db3 : DB := { db with ingredients := db.ingredients ++ [ing1], nextIngredientId := db.nextIngredientId + 1 } with hdb3
    have hid0 : ing0.id = db.nextIngredientId := by rw [hing0]
    have hrepl1 : replaceBy Ingredient.id ing0.id ing1 db1.ingredients = db3.ingredients := by
      rw [hdb1, hdb3]
      show replaceBy Ingredient.id ing0.id ing1 (db.ingredients ++ [ing0]) = db.ingredients ++ [ing1]
      rw [replaceBy_append,
        replaceBy_no_match Ingredient.id ing0.id ing1 db.ingredients
          (by intro j hj; simpa [hing0] using hwf j hj),
        replaceBy_cons, if_pos rfl]
      rfl
    have h3 : pushIngredient db1 name sp (some (some r)) (some (some n)) = (db3, .ok ing1) := by
      have hupd1 : updateFirstRating sp (mergeRatingFields (some (some r)) (some (some n))) ing0.ratings = [{ species := sp, healthRating := some r, notes := some n }] := by
        simp [hing0, updateFirstRating, mergeRatingFields]
      simp only [pushIngredient, hfind1, hrat0]
      rw [hupd1]
      have hshape : ({ ing0 with ratings := [{ species := sp, healthRating := some r, notes := some n }] } : Ingredient) = ing1 := by
        rw [hing1, hing0]
      rw [hshape, hrepl1]
    rw [h3]
    constructor
    · rw [hdb3, countByName]
      show ((db.ingredients ++ [ing1]).filter (fun i => i.name == name)).length = 1
      rw [List.filter_append, hnil]
      simp [hing1]
    · rw [hdb3]
      intro i hi hname
      rcases List.mem_append.mp hi with h | h
      · exact absurd hname (hmem i h)
      · have : i = ing1 := by simpa using h
        rw [this, hing1]
  · intro d nm s h o
    exact pushIngredient_ok d nm s h o

/-- C2 witness: the scenario at the concrete empty store. -/
theorem C2_push_idempotent_upsert_witness :
    countByName (pushIngredient (pushIngredient emptyDB "Chicken" .cat none none).1 "Chicken" .cat none none).1 "Chicken" = 1 :=
  (C2_push_idempotent_upsert emptyDB "Chicken" .cat (by decide) (by decide)).1

theorem addProduct_ok_of_fresh (db : DB) (b f : String) (sp : Species)
    (ls : LifeStage) (ft : FoodType) (ing : List String) (sz : List Size)
    (fc : List FeedingRow)
    (h : db.products.find? (tupleMatches b f sp ls ft) = none) :
    exceptOk (addProduct db b f sp ls ft ing sz fc).2 = true := by
  simp [addProduct, h, exceptOk]

/-- C4: `Product.add` fails with `AlreadyExists` exactly when a stored
product matches the whole five-field tuple; a failing call leaves the
store untouched; and two adds whose tuples differ in at least one field
(and are both fresh for the store) both succeed. -/
theorem C4_add_natural_key_unique (db : DB) (b f : String) (sp : Species)
    (ls : LifeStage) (ft : FoodType) (ing : List String) (sz : List Size)
    (fc : List FeedingRow) :
    ((addProduct db b f sp ls ft ing sz fc).2 = .error .alreadyExists ↔
      ∃ p ∈ db.products, tupleMatches b f sp ls ft p = true)
    ∧ (∀ e, (addProduct db b f sp ls ft ing sz fc).2 = .error e →
        (addProduct db b f sp ls ft ing sz fc).1 = db)
    ∧ (∀ (b' f' : String) (sp' : Species) (ls' : LifeStage) (ft' : FoodType)
        (ing' : List String) (sz' : List Size) (fc' : List FeedingRow),
        (∀ p ∈ db.products, tupleMatches b f sp ls ft p = false) →
        (∀ p ∈ db.products, tupleMatches b' f' sp' ls' ft' p = false) →
        ¬(b = b' ∧ f = f' ∧ sp = sp' ∧ ls = ls' ∧ ft = ft') →
        exceptOk (addProduct db b f sp ls ft ing sz fc).2 = true
        ∧ exceptOk (addProduct (addProduct db b f sp ls ft ing sz fc).1 b' f' sp' ls' ft' ing' sz' fc').2 = true) := by
  refine ⟨?_, ?_, ?_⟩
  · cases h : db.products.find? (tupleMatches b f sp ls ft) with
    | some p =>
        simp only [addProduct, h]
        constructor
        · intro _
          exact ⟨p, List.mem_of_find?_eq_some h, List.find?_some h⟩
        · intro _
          trivial
    | none =>
        simp only [addProduct, h]
        constructor
        · intro hcon
          exact absurd hcon (by simp)
        · rintro ⟨p, hp, hmatch⟩
          have := List.find?_eq_none.mp h p hp
          simp [hmatch] at this
  · intro e he
    cases h : db.products.find? (tupleMatches b f sp ls ft) with
    | some p => simp only [addProduct, h]
    | none =>
        rw [addProduct] at he
        simp only [h] at he
        exact absurd he (by simp)
  · intro b' f' sp' ls' ft' ing' sz' fc' hfresh1 hfresh2 hne
    have h1 : db.products.find? (tupleMatches b f sp ls ft) = none :=
      List.find?_eq_none.mpr (fun p hp => by simp [hfresh1 p hp])
    constructor
    · exact addProduct_ok_of_fresh _ b f sp ls ft ing sz fc h1
    · have hprods : (addProduct db b f sp ls ft ing sz fc).1.products =
          db.products ++ [{ id := db.nextProductId, brand := b, flavor := f, species := sp, lifeStage := ls, foodType := ft, ingredients := ing, sizes := sz, feedingChart := fc }] := by
        simp only [addProduct, h1]
        simp [pushManyNames_products]
      have hnew : tupleMatches b' f' sp' ls' ft'
          { id := db.nextProductId, brand := b, flavor := f, species := sp, lifeStage := ls, foodType := ft, ingredients := ing, sizes := sz, feedingChart := fc } = false := by
        by_contra hcon
        rw [Bool.not_eq_false] at hcon
        simp only [tupleMatches, Bool.and_eq_true, beq_iff_eq, decide_eq_true_eq] at hcon
        exact hne ⟨hcon.1.1.1.1, hcon.1.1.1.2, hcon.1.1.2, hcon.1.2, hcon.2⟩
      have h2 : (addProduct db b f sp ls ft ing sz fc).1.products.find?
          (tupleMatches b' f' sp' ls' ft') = none := by
        rw [hprods]
        refine List.find?_eq_none.mpr ?_
        intro x hx
        rcases List.mem_append.mp hx with hx | hx
        · simp [hfresh2 x hx]
        · have : x = { id := db.nextProductId, brand := b, flavor := f, species := sp, lifeStage := ls, foodType := ft, ingredients := ing, sizes := sz, feedingChart := fc } := by
            simpa using hx
          rw [this]
          simp [hnew]
      exact addProduct_ok_of_fresh _ b' f' sp' ls' ft' ing' sz' fc' h2

/-- C4 witness: on the empty store, adding two products differing only in
flavor both succeed, and the failure-related conjuncts hold vacuously. -/
theorem C4_add_natural_key_unique_witness :
    exceptOk (addProduct emptyDB "Purina" "Beef" .cat .adult .dry [] [] []).2 = true
    ∧ exceptOk (addProduct (addProduct emptyDB "Purina" "Beef" .cat .adult .dry [] [] []).1 "Purina" "Chicken" .cat .adult .dry [] [] []).2 = true :=
  (C4_add_natural_key_unique emptyDB "Purina" "Beef" .cat .adult .dry [] [] []).2.2
    "Purina" "Chicken" .cat .adult .dry [] [] []
    (by decide) (by decide) (by decide)

/-- C6 amended: for a name filter free of regex metacharacters — `.`,
the quantifier braces of `a{2}`, and the characters of `regexMetaChars` —
the original claim holds: the result is exactly the ingredients whose
stored name contains the filter as a case-insensitive substring.  Filters
are in general interpreted as case-insensitive regular expressions, so
`.` matches any character, `{2}` quantifies, and invalid patterns such as
`(` or a bare `*` throw. -/
theorem C6_name_filter_substring_amended (db : DB) (pat : String)
    (hplain : ∀ c ∈ pat.toList, c ≠ '.' ∧ c ∉ regexMetaChars) :
    findIngredients db { emptyIngFilter with name := some pat } =
      some (.many (db.ingredients.filter (fun i => isSubstringCI pat i.name))) := by
  have hparse : parsePattern pat.toList = some (pat.toList.map RTok.lit) :=
    parsePattern_plain pat.toList hplain
  simp only [findIngredients, emptyIngFilter, hparse]
  refine congrArg some (congrArg IngFindResult.many ?_)
  apply List.filter_congr
  intro i hi
  simp [ingMatches, healthQueryOf, emptyIngFilter, searchFrom_lit, isSubstringCI]

/-- C6 amended witness: the plain filter `b` against the store holding
`abc`. -/
theorem C6_name_filter_substring_amended_witness :
    findIngredients dbAbc { emptyIngFilter with name := some "b" } =
      some (.many [abcIng]) := by
  rw [C6_name_filter_substring_amended dbAbc "b" (by decide)]
  decide

/-- C7: `mergeDuplicates` on two distinct existing ingredients returns the
primary extended by exactly the duplicate's ratings for species the
primary lacked (its own ratings untouched), leaves that merged record at
the primary id, leaves nothing at the duplicate id, and a repeated call
with the now-deleted duplicate id fails with `NotFound` (leaving the store
as it was).  The duplicate's ratings are assumed species-unique, the data
model's invariant. -/
theorem C7_mergeDuplicates_copies_and_deletes (db : DB) (idA idB : Nat)
    (A B : Ingredient)
    (hA : lookupIng db idA = some A) (hB : lookupIng db idB = some B)
    (hne : idA ≠ idB)
    (hBdist : B.ratings.Pairwise (fun r s => r.species ≠ s.species)) :
    (mergeDuplicates db idA idB).2 = .ok (mergedPrimary A B)
    ∧ lookupIng (mergeDuplicates db idA idB).1 idA = some (mergedPrimary A B)
    ∧ lookupIng (mergeDuplicates db idA idB).1 idB = none
    ∧ mergeDuplicates (mergeDuplicates db idA idB).1 idA idB =
        ((mergeDuplicates db idA idB).1, .error .notFound) := by
  have hAid : A.id = idA := by
    have := List.find?_some hA
    simpa using this
  have hfold : B.ratings.foldl
      (fun acc dr =>
        if acc.any (fun pr => decide (pr.species = dr.species)) then acc
        else acc ++ [dr])
      A.ratings =
      A.ratings ++ B.ratings.filter (fun dr => !(A.ratings.any (fun pr => decide (pr.species = dr.species)))) :=
    mergeFold_filter B.ratings A.ratings hBdist
  have h2 : (mergeDuplicates db idA idB).2 = .ok (mergedPrimary A B) := by
    simp only [mergeDuplicates, hA, hB, hfold, mergedPrimary]
  have hing : (mergeDuplicates db idA idB).1.ingredients =
      deleteBy Ingredient.id idB (replaceBy Ingredient.id A.id (mergedPrimary A B) db.ingredients) := by
    simp only [mergeDuplicates, hA, hB, hfold, mergedPrimary]
  have hlookA : lookupIng (mergeDuplicates db idA idB).1 idA = some (mergedPrimary A B) := by
    rw [lookupIng, hing, find?_deleteBy_ne Ingredient.id idB idA hne,
      ← hAid]
    exact find?_replaceBy_self Ingredient.id A.id A (mergedPrimary A B) rfl db.ingredients
      (by rw [← lookupIng, hAid]; exact hA)
  have hlookB : lookupIng (mergeDuplicates db idA idB).1 idB = none := by
    rw [lookupIng, hing]
    exact find?_deleteBy_self Ingredient.id idB _
  refine ⟨h2, hlookA, hlookB, ?_⟩
  rw [mergeDuplicates, hlookA, hlookB]

/-- C7 witness: the spec's example — primary has a `dog` rating, the
duplicate a `cat` rating. -/
theorem C7_mergeDuplicates_copies_and_deletes_witness :
    (mergeDuplicates dbChickenPair 1 2).2 = .ok (mergedPrimary chickenDog chickenCat)
    ∧ lookupIng (mergeDuplicates dbChickenPair 1 2).1 2 = none :=
  ⟨(C7_mergeDuplicates_copies_and_deletes dbChickenPair 1 2 chickenDog chickenCat
      (by decide) (by decide) (by decide) (by simp [chickenCat])).1,
   (C7_mergeDuplicates_copies_and_deletes dbChickenPair 1 2 chickenDog chickenCat
      (by decide) (by decide) (by decide) (by simp [chickenCat])).2.2.1⟩

/-- C9: merging an ingredient with itself does not fail and changes no
ratings — the returned "merged primary" is the record itself — but the
trailing delete removes the record, so afterwards the id resolves to
nothing. -/
theorem C9_merge_self_deletes (db : DB) (id : Nat) (ing : Ingredient)
    (h : lookupIng db id = some ing) :
    (mergeDuplicates db id id).2 = .ok ing
    ∧ lookupIng (mergeDuplicates db id id).1 id = none := by
  have hfold : ing.ratings.foldl
      (fun acc dr =>
        if acc.any (fun pr => decide (pr.species = dr.species)) then acc
        else acc ++ [dr])
      ing.ratings = ing.ratings := by
    apply mergeFold_self
    intro dr hdr
    exact List.any_eq_true.mpr ⟨dr, hdr, by simp⟩
  constructor
  · simp only [mergeDuplicates, h, hfold]
  · rw [lookupIng]
    simp only [mergeDuplicates, h, hfold]
    exact find?_deleteBy_self Ingredient.id id _

/-- C9 witness: merging id 1 with itself in the two-chicken store. -/
theorem C9_merge_self_deletes_witness :
    (mergeDuplicates dbChickenPair 1 1).2 = .ok chickenDog
    ∧ lookupIng (mergeDuplicates dbChickenPair 1 1).1 1 = none :=
  C9_merge_self_deletes dbChickenPair 1 chickenDog (by decide)

/-- C8 amended: on an existing product, `addSize` fails with
`IncompleteSizeDetails` (leaving the store, hence the product's size list,
exactly as it was) whenever any of packaging, price, count or unit is
missing — and, because the check is JS truthiness, also when a present
packaging is `""` or a present price or count is `0`; when all four are
present with truthy values, the size is appended, with links and imageUrls
defaulting to empty lists. -/
theorem C8_addSize_required_fields (db : DB) (pid : Nat) (p : Product)
    (s : SizePayload) (hp : lookupProd db pid = some p) :
    ((s.packaging = none ∨ s.price = none ∨ s.count = none ∨ s.unit = none) →
      addSize db pid s = (db, .error .incompleteSizeDetails))
    ∧ (∀ (pk : String) (pr ct : Int) (un : SizeUnit),
        s.packaging = some pk → s.price = some pr → s.count = some ct →
        s.unit = some un → pk ≠ "" → pr ≠ 0 → ct ≠ 0 →
        addSize db pid s =
          ({ db with products := replaceBy Product.id p.id { p with sizes := p.sizes ++ [{ packaging := pk, price := pr, count := ct, unit := un, links := s.links.getD [], imageUrls := s.imageUrls.getD [] }] } db.products },
           .ok { p with sizes := p.sizes ++ [{ packaging := pk, price := pr, count := ct, unit := un, links := s.links.getD [], imageUrls := s.imageUrls.getD [] }] })) := by
  constructor
  · intro hmiss
    rcases hpk : s.packaging with _ | pk <;>
      rcases hpr : s.price with _ | pr <;>
        rcases hct : s.count with _ | ct <;>
          rcases hun : s.unit with _ | un <;>
            simp_all [addSize, hp]
  · intro pk pr ct un hpk hpr hct hun hpkne hprne hctne
    have hcond : (pk == "" || pr == 0 || ct == 0) = false := by
      simp [hpkne, hprne, hctne]
    simp only [addSize, hp, hpk, hpr, hct, hun, hcond]
    rfl

/-- C8 amended witness: a fully-populated payload is appended. -/
theorem C8_addSize_required_fields_witness :
    (addSize dbOneProduct 1 fullSizePayload).2 =
      .ok { prodNoIngredients with sizes := [{ packaging := "bag", price := 20, count := 5, unit := .lb, links := [], imageUrls := [] }] } := by
  rw [(C8_addSize_required_fields dbOneProduct 1 prodNoIngredients fullSizePayload
    (by decide)).2 "bag" 20 5 SizeUnit.lb rfl rfl rfl rfl (by decide) (by decide) (by decide)]
  decide

/-- C10: `addSize` treats falsy present values as missing — an empty
packaging string, a zero price or a zero count each fail with
`IncompleteSizeDetails` even though the field is explicitly present, and
the store is left unchanged. -/
theorem C10_addSize_rejects_falsy_present (db : DB) (pid : Nat) (p : Product)
    (hp : lookupProd db pid = some p) :
    (∀ (pr ct : Int) (un : SizeUnit) (l i : Option (List String)),
      addSize db pid { packaging := some "", price := some pr, count := some ct, unit := some un, links := l, imageUrls := i } =
        (db, .error .incompleteSizeDetails))
    ∧ (∀ (pk : String) (ct : Int) (un : SizeUnit) (l i : Option (List String)),
      addSize db pid { packaging := some pk, price := some 0, count := some ct, unit := some un, links := l, imageUrls := i } =
        (db, .error .incompleteSizeDetails))
    ∧ (∀ (pk : String) (pr : Int) (un : SizeUnit) (l i : Option (List String)),
      addSize db pid { packaging := some pk, price := some pr, count := some 0, unit := some un, links := l, imageUrls := i } =
        (db, .error .incompleteSizeDetails)) := by
  refine ⟨?_, ?_, ?_⟩
  · intro pr ct un l i
    simp [addSize, hp]
  · intro pk ct un l i
    simp [addSize, hp]
  · intro pk pr un l i
    simp [addSize, hp]

/-- C10 witness: an empty packaging string is rejected on the concrete
store. -/
theorem C10_addSize_rejects_falsy_present_witness :
    addSize dbOneProduct 1 { packaging := some "", price := some 20, count := some 5, unit := some .lb, links := none, imageUrls := none } =
      (dbOneProduct, .error .incompleteSizeDetails) :=
  (C10_addSize_rejects_falsy_present dbOneProduct 1 prodNoIngredients (by decide)).1
    20 5 .lb none none

end HealthyBites
